import Mathlib

/-!
Verification of the per-stream HTTP/3 framing engine (`src/h3/stream.rs`).

The `Stream` structure and its operations below are a shallow embedding of
the Rust code: `u8`/`u64`/`usize` values become `Nat`, the receive buffer
`Vec<u8>` becomes `List Nat`, and `Result<T>` becomes `Except Error T`.
Operations that can panic (an `unwrap` of an absent value, an unsigned
subtraction that can underflow) return an outer `Option`, with `none`
standing for the panic.

Parts of the repository that the engine references but whose source is not
in scope (the h3 error enum, the frame-type tag constants and frame codec of
the frame module, the varint codec of the octets module, the transport's
`is_bidi` helper, and the connection dispatcher) are modelled from the
specification; each such definition carries a doc comment saying so.
-/

namespace H3

/-- Modelled from the spec: the h3 error taxonomy of §7 (the h3 `Error`
enum lives outside the provided sources). `Done` is the insufficient-data
sentinel of §9 used by `get_varint`. -/
inductive Error where
  | BufferTooShort
  | InternalError
  | MissingSettings
  | UnexpectedFrame
  | Done
deriving DecidableEq, Repr

/-- Stream type tags, from `stream.rs`. -/
def HTTP3_CONTROL_STREAM_TYPE_ID : Nat := 0x43

def HTTP3_PUSH_STREAM_TYPE_ID : Nat := 0x50

def QPACK_ENCODER_STREAM_TYPE_ID : Nat := 0x48

def QPACK_DECODER_STREAM_TYPE_ID : Nat := 0x68

/-- Modelled from the spec: frame-type tag constants of the external frame
module (§6 lists SETTINGS, HEADERS, DATA, PRIORITY, PUSH_PROMISE as opaque,
distinct tags); the concrete values are the draft-17 wire values. -/
def DATA_FRAME_TYPE_ID : Nat := 0x0

/-- Modelled from the spec: see `DATA_FRAME_TYPE_ID`. -/
def HEADERS_FRAME_TYPE_ID : Nat := 0x1

/-- Modelled from the spec: see `DATA_FRAME_TYPE_ID`. -/
def PRIORITY_FRAME_TYPE_ID : Nat := 0x2

/-- Modelled from the spec: see `DATA_FRAME_TYPE_ID`. -/
def SETTINGS_FRAME_TYPE_ID : Nat := 0x4

/-- Modelled from the spec: see `DATA_FRAME_TYPE_ID`. -/
def PUSH_PROMISE_FRAME_TYPE_ID : Nat := 0x5

/-- `StreamType`, from `stream.rs`. -/
inductive StreamType where
  | Control
  | Request
  | Push
  | QpackEncoder
  | QpackDecoder
deriving DecidableEq, Repr

/-- `StreamState`, from `stream.rs`. -/
inductive StreamState where
  | StreamTypeLen
  | StreamType
  | FrameTypeLen
  | FrameType
  | FramePayloadLenLen
  | FramePayloadLen
  | FramePayload
  | PushIdLen
  | PushId
  | QpackInstruction
  | Invalid
  | Done
deriving DecidableEq, Repr

/-- `StreamType::deserialize`, from `stream.rs`. -/
def StreamType.deserialize (v : Nat) : Option StreamType :=
  if v = HTTP3_CONTROL_STREAM_TYPE_ID then some StreamType.Control
  else if v = HTTP3_PUSH_STREAM_TYPE_ID then some StreamType.Push
  else if v = QPACK_ENCODER_STREAM_TYPE_ID then some StreamType.QpackEncoder
  else if v = QPACK_DECODER_STREAM_TYPE_ID then some StreamType.QpackDecoder
  else none

/-- The `Stream` engine state, from `stream.rs` (field `_is_local` is kept
as `is_local`). -/
structure Stream where
  id : Nat
  ty : Option StreamType
  is_local : Bool
  initialised : Bool
  ty_len : Nat
  state : StreamState
  stream_offset : Nat
  buf : List Nat
  buf_read_off : Nat
  buf_end_pos : Nat
  next_varint_len : Nat
  frame_payload_len : Nat
  frame_type : Option Nat
deriving DecidableEq, Repr

/-- Modelled from the spec: QUIC stream directionality (`crate::stream::is_bidi`
is outside the provided sources); bidirectional stream ids are those with the
0x2 bit clear. -/
def is_bidi (id : Nat) : Bool :=
  id % 4 == 0 || id % 4 == 1

/-- `Stream::new`, from `stream.rs` (the Rust function returns
`Result<Stream>` but always succeeds, so the `Ok` wrapper is dropped). -/
def Stream.new (id : Nat) (is_local : Bool) : Stream :=
  let ty := if is_bidi id then some StreamType.Request else none
  let initialised := if is_bidi id then true else false
  let state :=
    if is_bidi id then StreamState.FramePayloadLenLen
    else StreamState.StreamTypeLen
  { id := id
    ty := ty
    is_local := is_local
    initialised := initialised
    ty_len := 0
    state := state
    stream_offset := 0
    buf := []
    buf_read_off := 0
    buf_end_pos := 0
    next_varint_len := 0
    frame_payload_len := 0
    frame_type := none }

/-- `Stream::buf_bytes`, from `stream.rs`: the requested view of the next
`size` unconsumed bytes, or `BufferTooShort`. -/
def Stream.buf_bytes (s : Stream) (size : Nat) : Except Error (List Nat) :=
  if s.buf_read_off + size < s.buf_end_pos + 1 then
    Except.ok ((s.buf.drop s.buf_read_off).take size)
  else
    Except.error Error.BufferTooShort

/-- `Stream::add_data`, from `stream.rs`. -/
def Stream.add_data (s : Stream) (d : List Nat) : Stream :=
  { s with buf_end_pos := s.buf_end_pos + d.length, buf := s.buf ++ d }

/-- `Stream::set_stream_type_len`, from `stream.rs`. -/
def Stream.set_stream_type_len (s : Stream) (len : Nat) : Except Error Stream :=
  if s.state = StreamState.StreamTypeLen then
    Except.ok { s with ty_len := len, state := StreamState.StreamType }
  else
    Except.error Error.InternalError

/-- `Stream::set_stream_type`, from `stream.rs`. -/
def Stream.set_stream_type (s : Stream) (ty : Option StreamType) :
    Except Error Stream :=
  if s.state = StreamState.StreamType then
    let s1 := { s with
      ty := ty
      stream_offset := s.stream_offset + s.ty_len
      buf_read_off := s.buf_read_off + s.ty_len }
    match ty with
    | some StreamType.Request =>
        Except.ok { s1 with state := StreamState.FramePayloadLenLen }
    | some StreamType.Control =>
        Except.ok { s1 with state := StreamState.FramePayloadLenLen }
    | some StreamType.Push =>
        Except.ok { s1 with state := StreamState.PushIdLen }
    | some StreamType.QpackEncoder | some StreamType.QpackDecoder =>
        Except.ok { s1 with
          state := StreamState.QpackInstruction, initialised := true }
    | none =>
        Except.ok { s1 with state := StreamState.Invalid }
  else
    Except.error Error.InternalError

/-- `Stream::set_next_varint_len`, from `stream.rs`: note that the source
stores `len` unconditionally, transitions only from the three `*Len`
states, and always returns `Ok(())`. -/
def Stream.set_next_varint_len (s : Stream) (len : Nat) : Except Error Stream :=
  let s1 := { s with next_varint_len := len }
  match s1.state with
  | StreamState.FramePayloadLenLen =>
      Except.ok { s1 with state := StreamState.FramePayloadLen }
  | StreamState.FrameTypeLen =>
      Except.ok { s1 with state := StreamState.FrameType }
  | StreamState.PushIdLen =>
      Except.ok { s1 with state := StreamState.PushId }
  | _ => Except.ok s1

/-- Modelled from the spec: the varint codec of the octets module (§6: the
byte width is implied by the top two bits of the first byte); fails when
fewer bytes are present than the implied width. -/
def varint_len (first : Nat) : Nat := 2 ^ (first / 64)

/-- Modelled from the spec: see `varint_len`. The value is the low six bits
of the first byte followed by the remaining `varint_len - 1` bytes,
big-endian. -/
def varint_decode (bs : List Nat) : Except Error Nat :=
  match bs with
  | [] => Except.error Error.BufferTooShort
  | first :: rest =>
    let l := varint_len first
    if bs.length < l then Except.error Error.BufferTooShort
    else Except.ok ((rest.take (l - 1)).foldl (fun a b => a * 256 + b) (first % 64))

/-- `Stream::get_varint`, from `stream.rs`: decodes `next_varint_len` bytes
at the read cursor (via the octets codec) and advances both cursors by
`next_varint_len`; fails with `Done` when fewer bytes are buffered. -/
def Stream.get_varint (s : Stream) : Except Error (Nat × Stream) :=
  if s.buf.length - s.buf_read_off ≥ s.next_varint_len then
    match varint_decode ((s.buf.drop s.buf_read_off).take s.next_varint_len) with
    | Except.error e => Except.error e
    | Except.ok v =>
        Except.ok (v, { s with
          stream_offset := s.stream_offset + s.next_varint_len
          buf_read_off := s.buf_read_off + s.next_varint_len })
  else
    Except.error Error.Done

/-- `Stream::get_u8`, from `stream.rs`. In the source the returned byte is
`buf_bytes(1)?[0]`; in every reachable state the slice returned by a
successful `buf_bytes(1)` has exactly one element, so `headD 0` is that
byte. -/
def Stream.get_u8 (s : Stream) : Except Error (Nat × Stream) :=
  match s.buf_bytes 1 with
  | Except.error e => Except.error e
  | Except.ok bs =>
      Except.ok (bs.headD 0, { s with
        stream_offset := s.stream_offset + 1
        buf_read_off := s.buf_read_off + 1 })

/-- `Stream::_set_push_id`, from `stream.rs` (kept as `set_push_id`). -/
def Stream.set_push_id (s : Stream) (_id : Nat) : Except Error Stream :=
  if s.ty = some StreamType.Push then
    Except.ok { s with initialised := true }
  else
    Except.error Error.InternalError

/-- `Stream::set_frame_payload_len`, from `stream.rs`: note that the source
guards only on the stream's type (frames are expected on Control, Request
and Push streams), not on the current state. -/
def Stream.set_frame_payload_len (s : Stream) (len : Nat) : Except Error Stream :=
  if s.ty = some StreamType.Control ∨ s.ty = some StreamType.Request ∨
      s.ty = some StreamType.Push then
    Except.ok { s with
      frame_payload_len := len, state := StreamState.FrameTypeLen }
  else
    Except.error Error.UnexpectedFrame

/-- `Stream::set_frame_type`, from `stream.rs`: guarded on the stream's
type only (the current state is not examined). -/
def Stream.set_frame_type (s : Stream) (ty : Nat) : Except Error Stream :=
  match s.ty with
  | some StreamType.Control =>
    if !s.initialised then
      if ty = SETTINGS_FRAME_TYPE_ID then
        Except.ok { s with
          frame_type := some ty
          state := StreamState.FramePayload
          initialised := true }
      else
        Except.error Error.MissingSettings
    else
      if ty = SETTINGS_FRAME_TYPE_ID then
        Except.error Error.UnexpectedFrame
      else
        Except.ok { s with
          frame_type := some ty, state := StreamState.FramePayload }
  | some StreamType.Request =>
    if ty = HEADERS_FRAME_TYPE_ID ∨ ty = DATA_FRAME_TYPE_ID ∨
        ty = PRIORITY_FRAME_TYPE_ID ∨ ty = PUSH_PROMISE_FRAME_TYPE_ID then
      Except.ok { s with
        frame_type := some ty, state := StreamState.FramePayload }
    else
      Except.error Error.UnexpectedFrame
  | some StreamType.Push =>
    Except.ok { s with
      frame_type := some ty, state := StreamState.FramePayloadLenLen }
  | _ => Except.error Error.UnexpectedFrame

/-- `Stream::parse_frame`, from `stream.rs`. The external frame codec
(`Frame::from_bytes2`, outside the provided sources; §6 models it as
`decode(frame_type, payload_len, payload_bytes) -> Frame`, failing on a
malformed payload) is passed in as the function `codec`. The outer `none`
models the panic of `self.frame_type.unwrap()`, which the source evaluates
before the `buf_bytes` availability check. -/
def Stream.parse_frame {F : Type} (codec : Nat → Nat → List Nat → Except Error F)
    (s : Stream) : Option (Except Error (F × Stream)) :=
  match s.frame_type with
  | none => none
  | some ft =>
    some (
      match s.buf_bytes s.frame_payload_len with
      | Except.error e => Except.error e
      | Except.ok payload =>
        match codec ft s.frame_payload_len payload with
        | Except.error e => Except.error e
        | Except.ok frame =>
            Except.ok (frame, { s with
              buf_read_off := s.buf_read_off + s.frame_payload_len
              stream_offset := s.stream_offset + s.frame_payload_len
              state := StreamState.FramePayloadLenLen }))

/-- Checked unsigned subtraction: `none` models the panic of a Rust `u64`
subtraction that underflows. -/
def checked_sub (a b : Nat) : Option Nat :=
  if b ≤ a then some (a - b) else none

/-- `Stream::more`, from `stream.rs`: computes
`buf_end_pos - buf_read_off - 1` in `u64` arithmetic (left associated,
modelled with checked subtraction) and tests the result against zero. -/
def Stream.more (s : Stream) : Option Bool :=
  match checked_sub s.buf_end_pos s.buf_read_off with
  | none => none
  | some x =>
    match checked_sub x 1 with
    | none => none
    | some rem => some (decide (0 < rem))

/-!
The connection dispatcher (§2, §4.3, §6) is outside the provided sources;
`step` models one dispatcher action from the spec's transition table and
dispatcher contract: in a `*Len` state it peeks the next byte (`buf_bytes`,
the spec's `peek`) to learn the varint width and feeds it to the matching
setter; in a value state it pulls the raw field (`get_varint`) and feeds
the decoded value back through the matching setter; in `FramePayload` it
calls `parse_frame`. States whose handling the spec leaves unimplemented
(push ids, qpack instruction bytes, the terminal states) stop the driver.
-/

/-- Modelled from the spec: one dispatcher-driven micro-step of the engine;
returns the frame yielded by the step, if any, and the new engine state.
Any error is a stop signal for the driver. -/
def step {F : Type} (codec : Nat → Nat → List Nat → Except Error F)
    (s : Stream) : Except Error (Option F × Stream) :=
  match s.state with
  | StreamState.StreamTypeLen =>
    match s.set_stream_type_len 1 with
    | Except.error e => Except.error e
    | Except.ok s1 => Except.ok (none, s1)
  | StreamState.StreamType =>
    match s.buf_bytes 1 with
    | Except.error e => Except.error e
    | Except.ok bs =>
      match s.set_stream_type (StreamType.deserialize (bs.headD 0)) with
      | Except.error e => Except.error e
      | Except.ok s1 => Except.ok (none, s1)
  | StreamState.FramePayloadLenLen =>
    match s.buf_bytes 1 with
    | Except.error e => Except.error e
    | Except.ok bs =>
      match s.set_next_varint_len (varint_len (bs.headD 0)) with
      | Except.error e => Except.error e
      | Except.ok s1 => Except.ok (none, s1)
  | StreamState.FramePayloadLen =>
    match s.get_varint with
    | Except.error e => Except.error e
    | Except.ok (v, s1) =>
      match s1.set_frame_payload_len v with
      | Except.error e => Except.error e
      | Except.ok s2 => Except.ok (none, s2)
  | StreamState.FrameTypeLen =>
    match s.buf_bytes 1 with
    | Except.error e => Except.error e
    | Except.ok bs =>
      match s.set_next_varint_len (varint_len (bs.headD 0)) with
      | Except.error e => Except.error e
      | Except.ok s1 => Except.ok (none, s1)
  | StreamState.FrameType =>
    match s.get_varint with
    | Except.error e => Except.error e
    | Except.ok (v, s1) =>
      match s1.set_frame_type (v % 256) with
      | Except.error e => Except.error e
      | Except.ok s2 => Except.ok (none, s2)
  | StreamState.FramePayload =>
    match s.parse_frame codec with
    | none => Except.error Error.InternalError
    | some (Except.error e) => Except.error e
    | some (Except.ok (f, s1)) => Except.ok (some f, s1)
  | _ => Except.error Error.Done

/-- Modelled from the spec: the dispatcher's processing loop; runs `step`
until an error (for `BufferTooShort`-class errors: until more data arrives)
or until the fuel runs out, collecting the yielded frames. -/
def process {F : Type} (codec : Nat → Nat → List Nat → Except Error F) :
    Nat → Stream → List F × Stream
  | 0, s => ([], s)
  | n + 1, s =>
    match step codec s with
    | Except.error _ => ([], s)
    | Except.ok (o, s1) =>
      let r := process codec n s1
      (o.toList ++ r.1, r.2)

/-- The driver is stalled: the next `step` fails (it is waiting for more
data, or has hit a protocol/terminal condition). -/
def stalled {F : Type} (codec : Nat → Nat → List Nat → Except Error F)
    (s : Stream) : Bool :=
  match step codec s with
  | Except.error _ => true
  | Except.ok _ => false

/-- Modelled from the spec: feed the chunks of data to the engine one
`add_data` call at a time, running the processing loop (with `n` fuel)
after each chunk, as the dispatcher does on each readable-stream event. -/
def driveChunks {F : Type} (codec : Nat → Nat → List Nat → Except Error F)
    (n : Nat) : Stream → List (List Nat) → List F × Stream
  | s, [] => ([], s)
  | s, c :: rest =>
    let r1 := process codec n (s.add_data c)
    let r2 := driveChunks codec n r1.2 rest
    (r1.1 ++ r2.1, r2.2)

/-- Every run of the processing loop in `driveChunks` ends stalled (rather
than by fuel exhaustion): the driver consumed each chunk as far as the
engine allows before the next chunk arrived. -/
def stalledThrough {F : Type} (codec : Nat → Nat → List Nat → Except Error F)
    (n : Nat) : Stream → List (List Nat) → Bool
  | _, [] => true
  | s, c :: rest =>
    let r1 := process codec n (s.add_data c)
    stalled codec r1.2 && stalledThrough codec n r1.2 rest

/-- The buffer bookkeeping invariant of §3: `buf_end_pos` is one past the
last appended byte, i.e. the buffer's length (`Stream.new` establishes it
and `add_data` is the only operation touching `buf`/`buf_end_pos`). -/
def buf_wf (s : Stream) : Prop :=
  s.buf_end_pos = s.buf.length

/-- The engine's mutating operations, tagged with their arguments, for
stating properties that quantify over all operations. -/
inductive Op where
  | addData (d : List Nat)
  | setStreamTypeLen (n : Nat)
  | setStreamType (t : Option StreamType)
  | setNextVarintLen (n : Nat)
  | getVarint
  | getU8
  | setPushId (n : Nat)
  | setFramePayloadLen (n : Nat)
  | setFrameType (t : Nat)
  | parseFrame
deriving DecidableEq, Repr

/-- Apply one engine operation to a stream, keeping only its effect on the
engine state (the panic of `parse_frame` with an absent frame type is
folded into `InternalError` here; monotonicity claims only concern the
`ok` results). -/
def apply_op {F : Type} (codec : Nat → Nat → List Nat → Except Error F) :
    Op → Stream → Except Error Stream
  | Op.addData d, s => Except.ok (s.add_data d)
  | Op.setStreamTypeLen n, s => s.set_stream_type_len n
  | Op.setStreamType t, s => s.set_stream_type t
  | Op.setNextVarintLen n, s => s.set_next_varint_len n
  | Op.getVarint, s => s.get_varint.map Prod.snd
  | Op.getU8, s => s.get_u8.map Prod.snd
  | Op.setPushId n, s => s.set_push_id n
  | Op.setFramePayloadLen n, s => s.set_frame_payload_len n
  | Op.setFrameType t, s => s.set_frame_type t
  | Op.parseFrame, s =>
    match s.parse_frame codec with
    | none => Except.error Error.InternalError
    | some (Except.error e) => Except.error e
    | some (Except.ok (_, s1)) => Except.ok s1

/-- Side condition under which a successful operation preserves
`buf_read_off ≤ buf_end_pos`: `set_stream_type` advances the read cursor
by `ty_len` without any availability check, so it needs `ty_len` bytes to
actually be unconsumed; every other operation needs nothing. -/
def opSafe : Op → Stream → Prop
  | Op.setStreamType _, s => s.buf_read_off + s.ty_len ≤ s.buf_end_pos
  | _, _ => True

/-- A frame codec for concrete runs: packages its inputs as the frame
(§6 treats payload interpretation as external). -/
def demoCodec : Nat → Nat → List Nat → Except Error (Nat × Nat × List Nat) :=
  fun t l p => Except.ok (t, l, p)

/-- A stream in the terminal `Invalid` state. It is reachable: created
unidirectional (id 2), fed the unknown type byte 0xFF
(`set_stream_type_len 1` then `set_stream_type none`). -/
def sInvalid : Stream :=
  { id := 2
    ty := none
    is_local := false
    initialised := false
    ty_len := 1
    state := StreamState.Invalid
    stream_offset := 1
    buf := [0xFF]
    buf_read_off := 1
    buf_end_pos := 1
    next_varint_len := 1
    frame_payload_len := 0
    frame_type := none }

/-- The setter sequence reaching `sInvalid` from a fresh unidirectional
stream. -/
def sInvalidRun : Except Error Stream :=
  (((Stream.new 2 false).add_data [0xFF]).set_stream_type_len 1).bind
    (fun s => (s.set_next_varint_len 1).bind
      (fun s1 => s1.set_stream_type (StreamType.deserialize 0xFF)))

/-- A not-yet-initialised Control stream about to read its first frame
type. -/
def sCtrlUninit : Stream :=
  { id := 3
    ty := some StreamType.Control
    is_local := false
    initialised := false
    ty_len := 1
    state := StreamState.FrameType
    stream_offset := 2
    buf := [0x43, 1, 4]
    buf_read_off := 2
    buf_end_pos := 3
    next_varint_len := 1
    frame_payload_len := 1
    frame_type := none }

/-- An initialised Control stream (its SETTINGS frame already parsed)
about to read a frame type. -/
def sCtrlInit : Stream :=
  { sCtrlUninit with initialised := true, frame_type := some SETTINGS_FRAME_TYPE_ID }

/-- A Request stream about to read a frame type. -/
def sReq : Stream :=
  { id := 0
    ty := some StreamType.Request
    is_local := true
    initialised := true
    ty_len := 0
    state := StreamState.FrameType
    stream_offset := 1
    buf := [2, 1]
    buf_read_off := 2
    buf_end_pos := 2
    next_varint_len := 1
    frame_payload_len := 2
    frame_type := none }

/-- A Request stream mid-frame: a DATA frame declared with payload length
10 while only 5 payload bytes are buffered (the spec's partial-payload
example). -/
def sPartial : Stream :=
  { id := 0
    ty := some StreamType.Request
    is_local := true
    initialised := true
    ty_len := 0
    state := StreamState.FramePayload
    stream_offset := 2
    buf := [1, 2, 3, 4, 5]
    buf_read_off := 0
    buf_end_pos := 5
    next_varint_len := 1
    frame_payload_len := 10
    frame_type := some DATA_FRAME_TYPE_ID }

/-- Two successful setter calls on a fresh unidirectional stream: a type
prefix width of 5 is recorded and then consumed by `set_stream_type`
although no byte was ever buffered. -/
def overAdvanceRun : Except Error Stream :=
  ((Stream.new 2 false).set_stream_type_len 5).bind
    (fun s => s.set_stream_type (some StreamType.Request))

/-- The stream produced by `overAdvanceRun`: its read cursor (5) is past
its end cursor (0). -/
def overAdvanced : Stream :=
  { id := 2
    ty := some StreamType.Request
    is_local := false
    initialised := false
    ty_len := 5
    state := StreamState.FramePayloadLenLen
    stream_offset := 5
    buf := []
    buf_read_off := 5
    buf_end_pos := 0
    next_varint_len := 0
    frame_payload_len := 0
    frame_type := none }

/-- A fresh unidirectional stream holding one unconsumed byte. -/
def sOneByte : Stream :=
  (Stream.new 3 false).add_data [7]

/-- The state of `sOneByte` after a successful `get_u8`. -/
def sOneByteRead : Stream :=
  { sOneByte with stream_offset := 1, buf_read_off := 1 }

/-- A fresh unidirectional stream holding two unconsumed bytes. -/
def sTwoByte : Stream :=
  (Stream.new 3 false).add_data [7, 8]

end H3

deriving instance DecidableEq for Except

namespace H3

/-!  Theorems.  -/

/-- Helper: what a successful `buf_bytes` tells us — the requested range
is within the buffered data and the returned view is the corresponding
slice. -/
lemma buf_bytes_ok {s : Stream} {size : Nat} {bs : List Nat}
    (h : s.buf_bytes size = Except.ok bs) :
    s.buf_read_off + size ≤ s.buf_end_pos ∧
    bs = (s.buf.drop s.buf_read_off).take size := by
  unfold Stream.buf_bytes at h
  split at h
  · rename_i hc
    simp only [Except.ok.injEq] at h
    exact ⟨by omega, h.symm⟩
  · simp at h

/-- Helper: with at least one unconsumed byte the subtractions in `more`
do not underflow, and the result is positive exactly when at least two
bytes are unconsumed. -/
lemma more_eq_of_lt (s : Stream) (h : s.buf_read_off < s.buf_end_pos) :
    s.more = some (decide (s.buf_read_off + 1 < s.buf_end_pos)) := by
  have h1 : s.buf_read_off ≤ s.buf_end_pos := le_of_lt h
  have h2 : 1 ≤ s.buf_end_pos - s.buf_read_off := by omega
  simp only [Stream.more, checked_sub, if_pos h1, if_pos h2]
  congr 1
  apply decide_eq_decide.mpr
  omega

/-- Claim C8 counterexample: a stream with exactly one unconsumed byte
(`buf_read_off < buf_end_pos`) on which `more` returns `false`, refuting
the claim that `more` is true iff at least one unconsumed byte is
buffered. -/
theorem C8_counterexample :
    sOneByte.buf_read_off < sOneByte.buf_end_pos ∧ sOneByte.more = some false := by
  exact ⟨by decide, rfl⟩

/-- Claim C8 (amended): when at least one byte is unconsumed, `more`
returns a value, and that value is `true` iff at least two bytes are
unconsumed (`buf_read_off + 1 < buf_end_pos`) — the off-by-one the spec
itself flags in §9. -/
theorem C8_more_two_bytes (s : Stream) (h : s.buf_read_off < s.buf_end_pos) :
    s.more = some (decide (s.buf_read_off + 1 < s.buf_end_pos)) :=
  more_eq_of_lt s h

/-- Witness for C8: the two-byte stream makes the amended claim's
hypothesis concrete (and the returned value is `true` there). -/
theorem C8_more_two_bytes_witness :
    sTwoByte.more = some (decide (sTwoByte.buf_read_off + 1 < sTwoByte.buf_end_pos)) :=
  C8_more_two_bytes sTwoByte (by decide)

/-- Claim C9: `parse_frame` performs no check on the recorded frame type:
whenever `frame_type` is absent it panics on the `unwrap` (the outer
`none`) instead of returning an error. -/
theorem C9_parse_frame_panic {F : Type}
    (codec : Nat → Nat → List Nat → Except Error F) (s : Stream)
    (h : s.frame_type = none) : s.parse_frame codec = none := by
  unfold Stream.parse_frame
  rw [h]

/-- Witness for C9: a fresh stream (no `set_frame_type` ever succeeded)
panics in `parse_frame`. -/
theorem C9_parse_frame_panic_witness :
    (Stream.new 3 false).parse_frame demoCodec = none :=
  C9_parse_frame_panic demoCodec (Stream.new 3 false) rfl

/-- Claim C10: `more` computes `buf_end_pos - buf_read_off - 1` in
unsigned arithmetic, so with an empty or fully consumed buffer the
subtraction underflows (the `none`, a panic in debug builds) instead of
returning `false`; with at least one unconsumed byte it is well-defined. -/
theorem C10_more_underflow (s : Stream) :
    (s.buf_end_pos = s.buf_read_off → s.more = none) ∧
    (s.buf_read_off < s.buf_end_pos →
      s.more = some (decide (s.buf_read_off + 1 < s.buf_end_pos))) := by
  constructor
  · intro h
    simp [Stream.more, checked_sub, h]
  · intro h
    exact more_eq_of_lt s h

/-- Witness for C10: a fresh stream (empty buffer) underflows; the
one-byte stream is well-defined. -/
theorem C10_more_underflow_witness :
    (Stream.new 3 false).more = none ∧
    sOneByte.more = some (decide (sOneByte.buf_read_off + 1 < sOneByte.buf_end_pos)) :=
  ⟨(C10_more_underflow (Stream.new 3 false)).1 rfl,
   (C10_more_underflow sOneByte).2 (by decide)⟩

/-- Claim C2 counterexample: on the terminal `Invalid` stream (reachable,
see `sInvalidRun`) the setter `set_next_varint_len` does not return
`InternalError`: it succeeds and overwrites `next_varint_len` (3 where the
stream held 1). -/
theorem C2_counterexample :
    sInvalidRun = Except.ok sInvalid ∧
    sInvalid.state = StreamState.Invalid ∧
    sInvalid.set_next_varint_len 3 = Except.ok { sInvalid with next_varint_len := 3 } ∧
    sInvalid.next_varint_len ≠ 3 := by
  exact ⟨rfl, rfl, rfl, by decide⟩

/-- Claim C2 (amended): only `set_stream_type_len` and `set_stream_type`
enforce the exact-state guard with `InternalError`; `set_next_varint_len`
always succeeds, storing its argument in every state (transitioning only
from the three length states); `set_frame_payload_len` and
`set_frame_type` ignore the state entirely and guard only on the stream's
type, failing with `UnexpectedFrame` (not `InternalError`) when the type
is not a framed role. -/
theorem C2_setter_guards :
    (∀ (s : Stream) (len : Nat), s.state ≠ StreamState.StreamTypeLen →
      s.set_stream_type_len len = Except.error Error.InternalError) ∧
    (∀ (s : Stream) (ty : Option StreamType), s.state ≠ StreamState.StreamType →
      s.set_stream_type ty = Except.error Error.InternalError) ∧
    (∀ (s : Stream) (len : Nat), ∃ s1,
      s.set_next_varint_len len = Except.ok s1 ∧ s1.next_varint_len = len) ∧
    (∀ (s : Stream) (len : Nat),
      s.ty ≠ some StreamType.Control → s.ty ≠ some StreamType.Request →
      s.ty ≠ some StreamType.Push →
      s.set_frame_payload_len len = Except.error Error.UnexpectedFrame) ∧
    (∀ (s : Stream) (ty : Nat),
      s.ty = none ∨ s.ty = some StreamType.QpackEncoder ∨
        s.ty = some StreamType.QpackDecoder →
      s.set_frame_type ty = Except.error Error.UnexpectedFrame) := by
  refine ⟨?_, ?_, ?_, ?_, ?_⟩
  · intro s len h
    simp [Stream.set_stream_type_len, h]
  · intro s ty h
    simp [Stream.set_stream_type, h]
  · intro s len
    unfold Stream.set_next_varint_len
    cases hs : s.state <;> exact ⟨_, rfl, rfl⟩
  · intro s len h1 h2 h3
    simp [Stream.set_frame_payload_len, h1, h2, h3]
  · intro s ty h
    rcases h with h | h | h <;> simp [Stream.set_frame_type, h]

/-- Witness for C2 (amended): each conjunct at the concrete `Invalid`
stream. -/
theorem C2_setter_guards_witness :
    sInvalid.set_stream_type_len 1 = Except.error Error.InternalError ∧
    sInvalid.set_stream_type none = Except.error Error.InternalError ∧
    (∃ s1, sInvalid.set_next_varint_len 3 = Except.ok s1 ∧ s1.next_varint_len = 3) ∧
    sInvalid.set_frame_payload_len 5 = Except.error Error.UnexpectedFrame ∧
    sInvalid.set_frame_type 4 = Except.error Error.UnexpectedFrame :=
  ⟨C2_setter_guards.1 sInvalid 1 (by decide),
   C2_setter_guards.2.1 sInvalid none (by decide),
   C2_setter_guards.2.2.1 sInvalid 3,
   C2_setter_guards.2.2.2.1 sInvalid 5 (by decide) (by decide) (by decide),
   C2_setter_guards.2.2.2.2 sInvalid 4 (Or.inl rfl)⟩

/-- Claim C3: first-frame rule — on a not-yet-initialised Control stream
in `FrameType`, a non-SETTINGS frame type fails with `MissingSettings`
(the engine state is returned unchanged, as the error carries no new
state), while SETTINGS records the type, transitions to `FramePayload`
and sets `initialised`. -/
theorem C3_first_frame_rule (s : Stream) (hty : s.ty = some StreamType.Control)
    (hinit : s.initialised = false) (_hst : s.state = StreamState.FrameType) :
    (∀ t, t ≠ SETTINGS_FRAME_TYPE_ID →
      s.set_frame_type t = Except.error Error.MissingSettings) ∧
    s.set_frame_type SETTINGS_FRAME_TYPE_ID =
      Except.ok { s with
        frame_type := some SETTINGS_FRAME_TYPE_ID
        state := StreamState.FramePayload
        initialised := true } := by
  constructor
  · intro t ht
    simp [Stream.set_frame_type, hty, hinit, ht]
  · simp [Stream.set_frame_type, hty, hinit]

/-- Witness for C3: the concrete uninitialised Control stream with frame
type 7 (not SETTINGS) and with SETTINGS. -/
theorem C3_first_frame_rule_witness :
    sCtrlUninit.set_frame_type 7 = Except.error Error.MissingSettings ∧
    sCtrlUninit.set_frame_type SETTINGS_FRAME_TYPE_ID =
      Except.ok { sCtrlUninit with
        frame_type := some SETTINGS_FRAME_TYPE_ID
        state := StreamState.FramePayload
        initialised := true } :=
  ⟨(C3_first_frame_rule sCtrlUninit rfl rfl rfl).1 7 (by decide),
   (C3_first_frame_rule sCtrlUninit rfl rfl rfl).2⟩

/-- Claim C4: no duplicate SETTINGS — on an initialised Control stream in
`FrameType`, SETTINGS fails with `UnexpectedFrame` (state unchanged), and
any other frame type is recorded with a transition to `FramePayload`. -/
theorem C4_no_duplicate_settings (s : Stream) (hty : s.ty = some StreamType.Control)
    (hinit : s.initialised = true) (_hst : s.state = StreamState.FrameType) :
    s.set_frame_type SETTINGS_FRAME_TYPE_ID = Except.error Error.UnexpectedFrame ∧
    (∀ t, t ≠ SETTINGS_FRAME_TYPE_ID →
      s.set_frame_type t =
        Except.ok { s with frame_type := some t, state := StreamState.FramePayload }) := by
  constructor
  · simp [Stream.set_frame_type, hty, hinit]
  · intro t ht
    simp [Stream.set_frame_type, hty, hinit, ht]

/-- Witness for C4: the concrete initialised Control stream with SETTINGS
and with frame type 0 (DATA). -/
theorem C4_no_duplicate_settings_witness :
    sCtrlInit.set_frame_type SETTINGS_FRAME_TYPE_ID = Except.error Error.UnexpectedFrame ∧
    sCtrlInit.set_frame_type 0 =
      Except.ok { sCtrlInit with frame_type := some 0, state := StreamState.FramePayload } :=
  ⟨(C4_no_duplicate_settings sCtrlInit rfl rfl rfl).1,
   (C4_no_duplicate_settings sCtrlInit rfl rfl rfl).2 0 (by decide)⟩

/-- Claim C5: request stream whitelist — on a Request stream in
`FrameType`, a frame type among HEADERS, DATA, PRIORITY, PUSH_PROMISE is
recorded with a transition to `FramePayload`, and any other value fails
with `UnexpectedFrame` (state and recorded frame type unchanged). -/
theorem C5_request_whitelist (s : Stream) (hty : s.ty = some StreamType.Request)
    (_hst : s.state = StreamState.FrameType) :
    (∀ t, t = HEADERS_FRAME_TYPE_ID ∨ t = DATA_FRAME_TYPE_ID ∨
        t = PRIORITY_FRAME_TYPE_ID ∨ t = PUSH_PROMISE_FRAME_TYPE_ID →
      s.set_frame_type t =
        Except.ok { s with frame_type := some t, state := StreamState.FramePayload }) ∧
    (∀ t, ¬(t = HEADERS_FRAME_TYPE_ID ∨ t = DATA_FRAME_TYPE_ID ∨
        t = PRIORITY_FRAME_TYPE_ID ∨ t = PUSH_PROMISE_FRAME_TYPE_ID) →
      s.set_frame_type t = Except.error Error.UnexpectedFrame) := by
  constructor
  · intro t ht
    simp [Stream.set_frame_type, hty, ht]
  · intro t ht
    simp [Stream.set_frame_type, hty, ht]

/-- Witness for C5: the concrete Request stream with HEADERS (allowed)
and SETTINGS (not whitelisted). -/
theorem C5_request_whitelist_witness :
    sReq.set_frame_type HEADERS_FRAME_TYPE_ID =
      Except.ok { sReq with
        frame_type := some HEADERS_FRAME_TYPE_ID
        state := StreamState.FramePayload } ∧
    sReq.set_frame_type SETTINGS_FRAME_TYPE_ID = Except.error Error.UnexpectedFrame :=
  ⟨(C5_request_whitelist sReq rfl rfl).1 HEADERS_FRAME_TYPE_ID (Or.inl rfl),
   (C5_request_whitelist sReq rfl rfl).2 SETTINGS_FRAME_TYPE_ID (by decide)⟩

/-- Claim C6: partial-payload atomicity of `parse_frame` — with a known
frame type and fewer unconsumed bytes than the declared payload length,
`parse_frame` fails with `BufferTooShort` and no cursor moves (the error
carries no new state); with enough bytes and a successful frame codec it
yields the decoded frame, advances `buf_read_off` and `stream_offset` by
exactly `frame_payload_len`, and transitions to `FramePayloadLenLen`. -/
theorem C6_partial_payload {F : Type}
    (codec : Nat → Nat → List Nat → Except Error F) (s : Stream) (ft : Nat)
    (hft : s.frame_type = some ft) (_hst : s.state = StreamState.FramePayload)
    (_hwf : s.buf_end_pos ≤ s.buf.length) :
    (s.buf_end_pos < s.buf_read_off + s.frame_payload_len →
      s.parse_frame codec = some (Except.error Error.BufferTooShort)) ∧
    (s.buf_read_off + s.frame_payload_len ≤ s.buf_end_pos →
      ∀ fr, codec ft s.frame_payload_len
          ((s.buf.drop s.buf_read_off).take s.frame_payload_len) = Except.ok fr →
        s.parse_frame codec = some (Except.ok (fr, { s with
          buf_read_off := s.buf_read_off + s.frame_payload_len
          stream_offset := s.stream_offset + s.frame_payload_len
          state := StreamState.FramePayloadLenLen }))) := by
  unfold Stream.parse_frame Stream.buf_bytes
  rw [hft]
  constructor
  · intro h
    rw [if_neg (by omega)]
  · intro h fr hc
    rw [if_pos (by omega)]
    simp [hc]

/-- Witness for C6: the spec's partial-payload example — payload length
10 with 5 buffered bytes fails with `BufferTooShort`; after appending the
remaining 5 bytes the retry succeeds and advances both cursors by 10. -/
theorem C6_partial_payload_witness :
    sPartial.parse_frame demoCodec = some (Except.error Error.BufferTooShort) ∧
    (sPartial.add_data [6, 7, 8, 9, 10]).parse_frame demoCodec =
      some (Except.ok ((DATA_FRAME_TYPE_ID, 10, [1, 2, 3, 4, 5, 6, 7, 8, 9, 10]),
        { sPartial.add_data [6, 7, 8, 9, 10] with
          buf_read_off := (sPartial.add_data [6, 7, 8, 9, 10]).buf_read_off +
            (sPartial.add_data [6, 7, 8, 9, 10]).frame_payload_len
          stream_offset := (sPartial.add_data [6, 7, 8, 9, 10]).stream_offset +
            (sPartial.add_data [6, 7, 8, 9, 10]).frame_payload_len
          state := StreamState.FramePayloadLenLen })) :=
  ⟨(C6_partial_payload demoCodec sPartial DATA_FRAME_TYPE_ID rfl rfl (by decide)).1
      (by decide),
   (C6_partial_payload demoCodec (sPartial.add_data [6, 7, 8, 9, 10])
      DATA_FRAME_TYPE_ID rfl rfl (by decide)).2 (by decide) _ (by rfl)⟩

/-- Claim C7 counterexample: two successful setter calls on a newly
created stream (`overAdvanceRun`, recording a type-prefix width of 5 and
then setting the stream type) leave `buf_read_off = 5 > 0 = buf_end_pos`,
refuting the claim that `buf_read_off ≤ buf_end_pos` holds after every
successful operation sequence. -/
theorem C7_counterexample :
    overAdvanceRun = Except.ok overAdvanced ∧
    overAdvanced.buf_end_pos < overAdvanced.buf_read_off := by
  exact ⟨rfl, by decide⟩

/-- Claim C7 (amended): every successful operation leaves
`stream_offset`, `buf_read_off` and `buf_end_pos` non-decreasing and
preserves the buffer bookkeeping invariant; `buf_read_off ≤ buf_end_pos`
is preserved as well, provided `set_stream_type` finds the `ty_len` bytes
it consumes actually buffered (`opSafe`) — without that proviso
`set_stream_type` over-advances the read cursor (see the
counterexample). -/
theorem C7_offset_monotonicity {F : Type}
    (codec : Nat → Nat → List Nat → Except Error F) (op : Op) (s s1 : Stream)
    (h : apply_op codec op s = Except.ok s1) :
    (s.stream_offset ≤ s1.stream_offset ∧ s.buf_read_off ≤ s1.buf_read_off ∧
      s.buf_end_pos ≤ s1.buf_end_pos) ∧
    (buf_wf s → buf_wf s1) ∧
    (buf_wf s → s.buf_read_off ≤ s.buf_end_pos → opSafe op s →
      s1.buf_read_off ≤ s1.buf_end_pos) := by
  cases op with
  | addData d =>
    simp only [apply_op, Except.ok.injEq] at h
    subst h
    simp only [Stream.add_data, buf_wf, opSafe, List.length_append]
    refine ⟨⟨le_refl _, le_refl _, Nat.le_add_right _ _⟩, ?_, ?_⟩ <;> omega
  | setStreamTypeLen n =>
    simp only [apply_op] at h
    unfold Stream.set_stream_type_len at h
    split at h
    · simp only [Except.ok.injEq] at h
      subst h
      simp [buf_wf, opSafe]
    · exact Except.noConfusion h
  | setStreamType t =>
    simp only [apply_op] at h
    unfold Stream.set_stream_type at h
    split at h
    · split at h <;>
        (simp only [Except.ok.injEq] at h; subst h;
         simp only [buf_wf, opSafe];
         refine ⟨⟨Nat.le_add_right _ _, Nat.le_add_right _ _, le_refl _⟩, ?_, ?_⟩ <;>
           (intros; omega))
    · exact Except.noConfusion h
  | setNextVarintLen n =>
    simp only [apply_op, Stream.set_next_varint_len] at h
    cases hs : s.state <;>
      (rw [hs] at h; simp only [Except.ok.injEq] at h; subst h;
       simp [buf_wf, opSafe])
  | getVarint =>
    simp only [apply_op] at h
    unfold Stream.get_varint at h
    split at h
    · rename_i hcond
      cases hdec : varint_decode ((s.buf.drop s.buf_read_off).take s.next_varint_len) with
      | error e => rw [hdec] at h; exact Except.noConfusion h
      | ok v =>
        rw [hdec] at h
        simp only [Except.map, Except.ok.injEq] at h
        subst h
        simp only [buf_wf, opSafe]
        refine ⟨⟨Nat.le_add_right _ _, Nat.le_add_right _ _, le_refl _⟩, ?_, ?_⟩ <;>
          (intros; omega)
    · exact Except.noConfusion h
  | getU8 =>
    simp only [apply_op] at h
    unfold Stream.get_u8 at h
    cases hbb : s.buf_bytes 1 with
    | error e => rw [hbb] at h; exact Except.noConfusion h
    | ok bs =>
      rw [hbb] at h
      simp only [Except.map, Except.ok.injEq] at h
      subst h
      have hle := (buf_bytes_ok hbb).1
      simp only [buf_wf, opSafe]
      refine ⟨⟨Nat.le_add_right _ _, Nat.le_add_right _ _, le_refl _⟩, ?_, ?_⟩ <;>
        (intros; omega)
  | setPushId n =>
    simp only [apply_op] at h
    unfold Stream.set_push_id at h
    split at h
    · simp only [Except.ok.injEq] at h
      subst h
      simp [buf_wf, opSafe]
    · exact Except.noConfusion h
  | setFramePayloadLen n =>
    simp only [apply_op] at h
    unfold Stream.set_frame_payload_len at h
    split at h
    · simp only [Except.ok.injEq] at h
      subst h
      simp [buf_wf, opSafe]
    · exact Except.noConfusion h
  | setFrameType t =>
    simp only [apply_op] at h
    unfold Stream.set_frame_type at h
    repeat' split at h
    all_goals
      first
      | exact Except.noConfusion h
      | (simp only [Except.ok.injEq] at h; subst h; simp [buf_wf, opSafe])
  | parseFrame =>
    simp only [apply_op] at h
    cases hpf : s.parse_frame codec with
    | none => rw [hpf] at h; exact Except.noConfusion h
    | some r =>
      rw [hpf] at h
      cases r with
      | error e => exact Except.noConfusion h
      | ok p =>
        obtain ⟨f, s2⟩ := p
        simp only [Except.ok.injEq] at h
        subst h
        unfold Stream.parse_frame at hpf
        cases hft : s.frame_type with
        | none => rw [hft] at hpf; exact Option.noConfusion hpf
        | some ft =>
          rw [hft] at hpf
          simp only [Option.some.injEq] at hpf
          cases hbb : s.buf_bytes s.frame_payload_len with
          | error e => rw [hbb] at hpf; exact Except.noConfusion hpf
          | ok payload =>
            rw [hbb] at hpf
            dsimp only at hpf
            have hle := (buf_bytes_ok hbb).1
            cases hc : codec ft s.frame_payload_len payload with
            | error e => rw [hc] at hpf; exact Except.noConfusion hpf
            | ok fr =>
              rw [hc] at hpf
              simp only [Except.ok.injEq, Prod.mk.injEq] at hpf
              obtain ⟨-, hs2⟩ := hpf
              subst hs2
              simp only [buf_wf, opSafe]
              refine ⟨⟨Nat.le_add_right _ _, Nat.le_add_right _ _, le_refl _⟩, ?_, ?_⟩ <;>
                (intros; omega)

/-- Witness for C7 (amended): a successful `get_u8` on the concrete
one-byte stream, with every hypothesis discharged. -/
theorem C7_offset_monotonicity_witness :
    (sOneByte.stream_offset ≤ sOneByteRead.stream_offset ∧
      sOneByte.buf_read_off ≤ sOneByteRead.buf_read_off ∧
      sOneByte.buf_end_pos ≤ sOneByteRead.buf_end_pos) ∧
    (buf_wf sOneByte → buf_wf sOneByteRead) ∧
    (buf_wf sOneByte → sOneByte.buf_read_off ≤ sOneByte.buf_end_pos →
      opSafe Op.getU8 sOneByte →
      sOneByteRead.buf_read_off ≤ sOneByteRead.buf_end_pos) :=
  C7_offset_monotonicity demoCodec Op.getU8 sOneByte sOneByteRead (by rfl)

/-!  Lemmas for C1: appending data commutes with every successful
driver step, so chunking the input does not change what is parsed.  -/

@[simp] lemma add_data_id (s : Stream) (d : List Nat) : (s.add_data d).id = s.id := rfl

@[simp] lemma add_data_ty (s : Stream) (d : List Nat) : (s.add_data d).ty = s.ty := rfl

@[simp] lemma add_data_is_local (s : Stream) (d : List Nat) :
    (s.add_data d).is_local = s.is_local := rfl

@[simp] lemma add_data_initialised (s : Stream) (d : List Nat) :
    (s.add_data d).initialised = s.initialised := rfl

@[simp] lemma add_data_ty_len (s : Stream) (d : List Nat) :
    (s.add_data d).ty_len = s.ty_len := rfl

@[simp] lemma add_data_state (s : Stream) (d : List Nat) :
    (s.add_data d).state = s.state := rfl

@[simp] lemma add_data_stream_offset (s : Stream) (d : List Nat) :
    (s.add_data d).stream_offset = s.stream_offset := rfl

@[simp] lemma add_data_buf (s : Stream) (d : List Nat) :
    (s.add_data d).buf = s.buf ++ d := rfl

@[simp] lemma add_data_buf_read_off (s : Stream) (d : List Nat) :
    (s.add_data d).buf_read_off = s.buf_read_off := rfl

@[simp] lemma add_data_buf_end_pos (s : Stream) (d : List Nat) :
    (s.add_data d).buf_end_pos = s.buf_end_pos + d.length := rfl

@[simp] lemma add_data_next_varint_len (s : Stream) (d : List Nat) :
    (s.add_data d).next_varint_len = s.next_varint_len := rfl

@[simp] lemma add_data_frame_payload_len (s : Stream) (d : List Nat) :
    (s.add_data d).frame_payload_len = s.frame_payload_len := rfl

@[simp] lemma add_data_frame_type (s : Stream) (d : List Nat) :
    (s.add_data d).frame_type = s.frame_type := rfl

lemma add_data_nil (s : Stream) : s.add_data [] = s := by
  simp [Stream.add_data]

lemma add_data_add_data (s : Stream) (a b : List Nat) :
    (s.add_data a).add_data b = s.add_data (a ++ b) := by
  simp [Stream.add_data]
  omega

lemma buf_wf_add_data {s : Stream} (d : List Nat) (h : buf_wf s) :
    buf_wf (s.add_data d) := by
  simp [buf_wf] at h ⊢
  omega

/-- A slice that lies inside the existing data is unchanged by appending
more data at the tail. -/
lemma take_drop_append (l d : List Nat) (i n : Nat) (h : i + n ≤ l.length) :
    ((l ++ d).drop i).take n = (l.drop i).take n := by
  rw [List.drop_append_of_le_length (by omega)]
  rw [List.take_append_of_le_length (by simp; omega)]

lemma buf_bytes_add_data {s : Stream} {size : Nat} {bs : List Nat}
    (d : List Nat) (hwf : buf_wf s) (h : s.buf_bytes size = Except.ok bs) :
    (s.add_data d).buf_bytes size = Except.ok bs := by
  obtain ⟨hle, hbs⟩ := buf_bytes_ok h
  unfold Stream.buf_bytes
  rw [if_pos (by simp; omega)]
  rw [hbs]
  simp only [add_data_buf, add_data_buf_read_off]
  rw [take_drop_append _ _ _ _ (by simp [buf_wf] at hwf; omega)]

lemma get_varint_add_data {s s1 : Stream} {v : Nat} (d : List Nat)
    (h : s.get_varint = Except.ok (v, s1)) :
    (s.add_data d).get_varint = Except.ok (v, s1.add_data d) := by
  unfold Stream.get_varint at h ⊢
  split at h
  · rename_i hcond
    have hsplit : s.next_varint_len = 0 ∨
        s.buf_read_off + s.next_varint_len ≤ s.buf.length := by omega
    have hlist : ((s.buf ++ d).drop s.buf_read_off).take s.next_varint_len =
        (s.buf.drop s.buf_read_off).take s.next_varint_len := by
      rcases hsplit with h0 | hin
      · simp [h0]
      · exact take_drop_append _ _ _ _ hin
    rw [if_pos (by simp; omega)]
    simp only [add_data_buf, add_data_buf_read_off, add_data_next_varint_len, hlist]
    cases hdec : varint_decode ((s.buf.drop s.buf_read_off).take s.next_varint_len) with
    | error e => rw [hdec] at h; exact Except.noConfusion h
    | ok w =>
      rw [hdec] at h
      simp only [Except.ok.injEq, Prod.mk.injEq] at h
      obtain ⟨hv, hs1⟩ := h
      subst hv
      subst hs1
      rfl
  · exact Except.noConfusion h

lemma set_stream_type_len_add_data {s s1 : Stream} {n : Nat} (d : List Nat)
    (h : s.set_stream_type_len n = Except.ok s1) :
    (s.add_data d).set_stream_type_len n = Except.ok (s1.add_data d) := by
  unfold Stream.set_stream_type_len at h ⊢
  split at h
  · rename_i hstate
    simp only [Except.ok.injEq] at h
    subst h
    rw [if_pos (by simpa using hstate)]
    rfl
  · exact Except.noConfusion h

lemma set_stream_type_add_data {s s1 : Stream} {t : Option StreamType}
    (d : List Nat) (h : s.set_stream_type t = Except.ok s1) :
    (s.add_data d).set_stream_type t = Except.ok (s1.add_data d) := by
  unfold Stream.set_stream_type at h ⊢
  split at h
  · rename_i hstate
    rw [if_pos (by simpa using hstate)]
    cases t with
    | none =>
      simp only [Except.ok.injEq] at h
      subst h
      rfl
    | some st =>
      cases st <;>
        (simp only [Except.ok.injEq] at h; subst h; rfl)
  · exact Except.noConfusion h

lemma set_next_varint_len_add_data {s s1 : Stream} {n : Nat} (d : List Nat)
    (h : s.set_next_varint_len n = Except.ok s1) :
    (s.add_data d).set_next_varint_len n = Except.ok (s1.add_data d) := by
  simp only [Stream.set_next_varint_len] at h ⊢
  cases hs : s.state <;>
    (rw [show ({ s.add_data d with next_varint_len := n } : Stream).state =
        s.state from rfl, hs]
     rw [show ({ s with next_varint_len := n } : Stream).state = s.state from rfl,
        hs] at h
     simp only [Except.ok.injEq] at h
     subst h
     rfl)

lemma set_frame_payload_len_add_data {s s1 : Stream} {n : Nat} (d : List Nat)
    (h : s.set_frame_payload_len n = Except.ok s1) :
    (s.add_data d).set_frame_payload_len n = Except.ok (s1.add_data d) := by
  unfold Stream.set_frame_payload_len at h ⊢
  split at h
  · rename_i hty
    rw [if_pos (by simpa using hty)]
    simp only [Except.ok.injEq] at h
    subst h
    rfl
  · exact Except.noConfusion h

lemma set_frame_type_add_data {s s1 : Stream} {t : Nat} (d : List Nat)
    (h : s.set_frame_type t = Except.ok s1) :
    (s.add_data d).set_frame_type t = Except.ok (s1.add_data d) := by
  unfold Stream.set_frame_type at h ⊢
  simp only [add_data_ty, add_data_initialised]
  cases hty : s.ty with
  | none =>
    rw [hty] at h
    exact Except.noConfusion h
  | some st =>
    cases st with
    | Control =>
      simp only [hty] at h ⊢
      by_cases hinit : (!s.initialised) = true
      · rw [if_pos hinit] at h ⊢
        by_cases hset : t = SETTINGS_FRAME_TYPE_ID
        · rw [if_pos hset] at h ⊢
          simp only [Except.ok.injEq] at h
          subst h
          rfl
        · rw [if_neg hset] at h
          exact Except.noConfusion h
      · rw [if_neg hinit] at h ⊢
        by_cases hset : t = SETTINGS_FRAME_TYPE_ID
        · rw [if_pos hset] at h
          exact Except.noConfusion h
        · rw [if_neg hset] at h ⊢
          simp only [Except.ok.injEq] at h
          subst h
          rfl
    | Request =>
      simp only [hty] at h ⊢
      by_cases hwl : t = HEADERS_FRAME_TYPE_ID ∨ t = DATA_FRAME_TYPE_ID ∨
          t = PRIORITY_FRAME_TYPE_ID ∨ t = PUSH_PROMISE_FRAME_TYPE_ID
      · rw [if_pos hwl] at h ⊢
        simp only [Except.ok.injEq] at h
        subst h
        rfl
      · rw [if_neg hwl] at h
        exact Except.noConfusion h
    | Push =>
      simp only [hty] at h ⊢
      simp only [Except.ok.injEq] at h
      subst h
      rfl
    | QpackEncoder =>
      rw [hty] at h
      exact Except.noConfusion h
    | QpackDecoder =>
      rw [hty] at h
      exact Except.noConfusion h

lemma parse_frame_add_data {F : Type}
    {codec : Nat → Nat → List Nat → Except Error F} {s s1 : Stream} {f : F}
    (d : List Nat) (hwf : buf_wf s)
    (h : s.parse_frame codec = some (Except.ok (f, s1))) :
    (s.add_data d).parse_frame codec = some (Except.ok (f, s1.add_data d)) := by
  unfold Stream.parse_frame at h ⊢
  simp only [add_data_frame_type, add_data_frame_payload_len]
  cases hft : s.frame_type with
  | none => rw [hft] at h; exact Option.noConfusion h
  | some ft =>
    rw [hft] at h
    simp only [Option.some.injEq] at h ⊢
    cases hbb : s.buf_bytes s.frame_payload_len with
    | error e => rw [hbb] at h; exact Except.noConfusion h
    | ok payload =>
      rw [hbb] at h
      rw [buf_bytes_add_data d hwf hbb]
      dsimp only at h ⊢
      cases hc : codec ft s.frame_payload_len payload with
      | error e => rw [hc] at h; exact Except.noConfusion h
      | ok fr =>
        rw [hc] at h
        simp only [Except.ok.injEq, Prod.mk.injEq] at h
        obtain ⟨hf, hs1⟩ := h
        subst hf
        subst hs1
        rfl

/-!  No operation other than `add_data` touches the buffer or its end
cursor.  -/

lemma set_stream_type_len_buf {s s1 : Stream} {n : Nat}
    (h : s.set_stream_type_len n = Except.ok s1) :
    s1.buf = s.buf ∧ s1.buf_end_pos = s.buf_end_pos := by
  unfold Stream.set_stream_type_len at h
  repeat' split at h
  all_goals first
    | exact Except.noConfusion h
    | (simp only [Except.ok.injEq] at h; subst h; exact ⟨rfl, rfl⟩)

lemma set_stream_type_buf {s s1 : Stream} {t : Option StreamType}
    (h : s.set_stream_type t = Except.ok s1) :
    s1.buf = s.buf ∧ s1.buf_end_pos = s.buf_end_pos := by
  unfold Stream.set_stream_type at h
  repeat' split at h
  all_goals first
    | exact Except.noConfusion h
    | (simp only [Except.ok.injEq] at h; subst h; exact ⟨rfl, rfl⟩)

lemma set_next_varint_len_buf {s s1 : Stream} {n : Nat}
    (h : s.set_next_varint_len n = Except.ok s1) :
    s1.buf = s.buf ∧ s1.buf_end_pos = s.buf_end_pos := by
  simp only [Stream.set_next_varint_len] at h
  repeat' split at h
  all_goals first
    | exact Except.noConfusion h
    | (simp only [Except.ok.injEq] at h; subst h; exact ⟨rfl, rfl⟩)

lemma set_frame_payload_len_buf {s s1 : Stream} {n : Nat}
    (h : s.set_frame_payload_len n = Except.ok s1) :
    s1.buf = s.buf ∧ s1.buf_end_pos = s.buf_end_pos := by
  unfold Stream.set_frame_payload_len at h
  repeat' split at h
  all_goals first
    | exact Except.noConfusion h
    | (simp only [Except.ok.injEq] at h; subst h; exact ⟨rfl, rfl⟩)

lemma set_frame_type_buf {s s1 : Stream} {t : Nat}
    (h : s.set_frame_type t = Except.ok s1) :
    s1.buf = s.buf ∧ s1.buf_end_pos = s.buf_end_pos := by
  unfold Stream.set_frame_type at h
  repeat' split at h
  all_goals first
    | exact Except.noConfusion h
    | (simp only [Except.ok.injEq] at h; subst h; exact ⟨rfl, rfl⟩)

lemma get_varint_buf {s s1 : Stream} {v : Nat}
    (h : s.get_varint = Except.ok (v, s1)) :
    s1.buf = s.buf ∧ s1.buf_end_pos = s.buf_end_pos := by
  unfold Stream.get_varint at h
  repeat' split at h
  all_goals first
    | exact Except.noConfusion h
    | (simp only [Except.ok.injEq, Prod.mk.injEq] at h;
       obtain ⟨-, hs⟩ := h; subst hs; exact ⟨rfl, rfl⟩)

lemma parse_frame_buf {F : Type}
    {codec : Nat → Nat → List Nat → Except Error F} {s s1 : Stream} {f : F}
    (h : s.parse_frame codec = some (Except.ok (f, s1))) :
    s1.buf = s.buf ∧ s1.buf_end_pos = s.buf_end_pos := by
  unfold Stream.parse_frame at h
  cases hft : s.frame_type with
  | none => rw [hft] at h; exact Option.noConfusion h
  | some ft =>
    rw [hft] at h
    simp only [Option.some.injEq] at h
    cases hbb : s.buf_bytes s.frame_payload_len with
    | error e => rw [hbb] at h; exact Except.noConfusion h
    | ok payload =>
      rw [hbb] at h
      dsimp only at h
      cases hc : codec ft s.frame_payload_len payload with
      | error e => rw [hc] at h; exact Except.noConfusion h
      | ok fr =>
        rw [hc] at h
        simp only [Except.ok.injEq, Prod.mk.injEq] at h
        obtain ⟨-, hs⟩ := h
        subst hs
        exact ⟨rfl, rfl⟩

/-- Appending data commutes with any successful driver step: the step
reads only below the old end cursor, so later data cannot change it. -/
lemma step_add_data {F : Type} {codec : Nat → Nat → List Nat → Except Error F}
    {s s1 : Stream} {o : Option F} (d : List Nat) (hwf : buf_wf s)
    (h : step codec s = Except.ok (o, s1)) :
    step codec (s.add_data d) = Except.ok (o, s1.add_data d) := by
  unfold step at h ⊢
  simp only [add_data_state]
  cases hst : s.state with
  | StreamTypeLen =>
    rw [hst] at h
    dsimp only at h ⊢
    cases hop : s.set_stream_type_len 1 with
    | error e => rw [hop] at h; exact Except.noConfusion h
    | ok s2 =>
      rw [hop] at h
      rw [set_stream_type_len_add_data d hop]
      simp only [Except.ok.injEq, Prod.mk.injEq] at h
      obtain ⟨ho, hs⟩ := h
      subst ho
      subst hs
      rfl
  | StreamType =>
    rw [hst] at h
    dsimp only at h ⊢
    cases hbb : s.buf_bytes 1 with
    | error e => rw [hbb] at h; exact Except.noConfusion h
    | ok bs =>
      rw [hbb] at h
      rw [buf_bytes_add_data d hwf hbb]
      dsimp only at h ⊢
      cases hop : s.set_stream_type (StreamType.deserialize (bs.headD 0)) with
      | error e => rw [hop] at h; exact Except.noConfusion h
      | ok s2 =>
        rw [hop] at h
        rw [set_stream_type_add_data d hop]
        simp only [Except.ok.injEq, Prod.mk.injEq] at h
        obtain ⟨ho, hs⟩ := h
        subst ho
        subst hs
        rfl
  | FramePayloadLenLen =>
    rw [hst] at h
    dsimp only at h ⊢
    cases hbb : s.buf_bytes 1 with
    | error e => rw [hbb] at h; exact Except.noConfusion h
    | ok bs =>
      rw [hbb] at h
      rw [buf_bytes_add_data d hwf hbb]
      dsimp only at h ⊢
      cases hop : s.set_next_varint_len (varint_len (bs.headD 0)) with
      | error e => rw [hop] at h; exact Except.noConfusion h
      | ok s2 =>
        rw [hop] at h
        rw [set_next_varint_len_add_data d hop]
        simp only [Except.ok.injEq, Prod.mk.injEq] at h
        obtain ⟨ho, hs⟩ := h
        subst ho
        subst hs
        rfl
  | FrameTypeLen =>
    rw [hst] at h
    dsimp only at h ⊢
    cases hbb : s.buf_bytes 1 with
    | error e => rw [hbb] at h; exact Except.noConfusion h
    | ok bs =>
      rw [hbb] at h
      rw [buf_bytes_add_data d hwf hbb]
      dsimp only at h ⊢
      cases hop : s.set_next_varint_len (varint_len (bs.headD 0)) with
      | error e => rw [hop] at h; exact Except.noConfusion h
      | ok s2 =>
        rw [hop] at h
        rw [set_next_varint_len_add_data d hop]
        simp only [Except.ok.injEq, Prod.mk.injEq] at h
        obtain ⟨ho, hs⟩ := h
        subst ho
        subst hs
        rfl
  | FramePayloadLen =>
    rw [hst] at h
    dsimp only at h ⊢
    cases hgv : s.get_varint with
    | error e => rw [hgv] at h; exact Except.noConfusion h
    | ok p =>
      obtain ⟨v, s2⟩ := p
      rw [hgv] at h
      rw [get_varint_add_data d hgv]
      dsimp only at h ⊢
      cases hop : s2.set_frame_payload_len v with
      | error e => rw [hop] at h; exact Except.noConfusion h
      | ok s3 =>
        rw [hop] at h
        rw [set_frame_payload_len_add_data d hop]
        simp only [Except.ok.injEq, Prod.mk.injEq] at h
        obtain ⟨ho, hs⟩ := h
        subst ho
        subst hs
        rfl
  | FrameType =>
    rw [hst] at h
    dsimp only at h ⊢
    cases hgv : s.get_varint with
    | error e => rw [hgv] at h; exact Except.noConfusion h
    | ok p =>
      obtain ⟨v, s2⟩ := p
      rw [hgv] at h
      rw [get_varint_add_data d hgv]
      dsimp only at h ⊢
      cases hop : s2.set_frame_type (v % 256) with
      | error e => rw [hop] at h; exact Except.noConfusion h
      | ok s3 =>
        rw [hop] at h
        rw [set_frame_type_add_data d hop]
        simp only [Except.ok.injEq, Prod.mk.injEq] at h
        obtain ⟨ho, hs⟩ := h
        subst ho
        subst hs
        rfl
  | FramePayload =>
    rw [hst] at h
    dsimp only at h ⊢
    cases hpf : s.parse_frame codec with
    | none => rw [hpf] at h; exact Except.noConfusion h
    | some r =>
      rw [hpf] at h
      cases r with
      | error e => exact Except.noConfusion h
      | ok p =>
        obtain ⟨f, s2⟩ := p
        rw [parse_frame_add_data d hwf hpf]
        dsimp only at h ⊢
        simp only [Except.ok.injEq, Prod.mk.injEq] at h
        obtain ⟨ho, hs⟩ := h
        subst ho
        subst hs
        rfl
  | PushIdLen => rw [hst] at h; exact Except.noConfusion h
  | PushId => rw [hst] at h; exact Except.noConfusion h
  | QpackInstruction => rw [hst] at h; exact Except.noConfusion h
  | Invalid => rw [hst] at h; exact Except.noConfusion h
  | Done => rw [hst] at h; exact Except.noConfusion h

/-- A successful driver step never touches the buffer or its end cursor,
so it preserves the bookkeeping invariant. -/
lemma step_buf_wf {F : Type} {codec : Nat → Nat → List Nat → Except Error F}
    {s s1 : Stream} {o : Option F}
    (h : step codec s = Except.ok (o, s1)) (hwf : buf_wf s) : buf_wf s1 := by
  unfold step at h
  cases hst : s.state with
  | StreamTypeLen =>
    rw [hst] at h
    dsimp only at h
    cases hop : s.set_stream_type_len 1 with
    | error e => rw [hop] at h; exact Except.noConfusion h
    | ok s2 =>
      rw [hop] at h
      simp only [Except.ok.injEq, Prod.mk.injEq] at h
      obtain ⟨-, hs⟩ := h
      subst hs
      obtain ⟨hb, he⟩ := set_stream_type_len_buf hop
      simp only [buf_wf, hb, he]
      exact hwf
  | StreamType =>
    rw [hst] at h
    dsimp only at h
    cases hbb : s.buf_bytes 1 with
    | error e => rw [hbb] at h; exact Except.noConfusion h
    | ok bs =>
      rw [hbb] at h
      dsimp only at h
      cases hop : s.set_stream_type (StreamType.deserialize (bs.headD 0)) with
      | error e => rw [hop] at h; exact Except.noConfusion h
      | ok s2 =>
        rw [hop] at h
        simp only [Except.ok.injEq, Prod.mk.injEq] at h
        obtain ⟨-, hs⟩ := h
        subst hs
        obtain ⟨hb, he⟩ := set_stream_type_buf hop
        simp only [buf_wf, hb, he]
        exact hwf
  | FramePayloadLenLen =>
    rw [hst] at h
    dsimp only at h
    cases hbb : s.buf_bytes 1 with
    | error e => rw [hbb] at h; exact Except.noConfusion h
    | ok bs =>
      rw [hbb] at h
      dsimp only at h
      cases hop : s.set_next_varint_len (varint_len (bs.headD 0)) with
      | error e => rw [hop] at h; exact Except.noConfusion h
      | ok s2 =>
        rw [hop] at h
        simp only [Except.ok.injEq, Prod.mk.injEq] at h
        obtain ⟨-, hs⟩ := h
        subst hs
        obtain ⟨hb, he⟩ := set_next_varint_len_buf hop
        simp only [buf_wf, hb, he]
        exact hwf
  | FrameTypeLen =>
    rw [hst] at h
    dsimp only at h
    cases hbb : s.buf_bytes 1 with
    | error e => rw [hbb] at h; exact Except.noConfusion h
    | ok bs =>
      rw [hbb] at h
      dsimp only at h
      cases hop : s.set_next_varint_len (varint_len (bs.headD 0)) with
      | error e => rw [hop] at h; exact Except.noConfusion h
      | ok s2 =>
        rw [hop] at h
        simp only [Except.ok.injEq, Prod.mk.injEq] at h
        obtain ⟨-, hs⟩ := h
        subst hs
        obtain ⟨hb, he⟩ := set_next_varint_len_buf hop
        simp only [buf_wf, hb, he]
        exact hwf
  | FramePayloadLen =>
    rw [hst] at h
    dsimp only at h
    cases hgv : s.get_varint with
    | error e => rw [hgv] at h; exact Except.noConfusion h
    | ok p =>
      obtain ⟨v, s2⟩ := p
      rw [hgv] at h
      dsimp only at h
      cases hop : s2.set_frame_payload_len v with
      | error e => rw [hop] at h; exact Except.noConfusion h
      | ok s3 =>
        rw [hop] at h
        simp only [Except.ok.injEq, Prod.mk.injEq] at h
        obtain ⟨-, hs⟩ := h
        subst hs
        obtain ⟨hb1, he1⟩ := get_varint_buf hgv
        obtain ⟨hb2, he2⟩ := set_frame_payload_len_buf hop
        simp only [buf_wf, hb1, he1, hb2, he2]
        exact hwf
  | FrameType =>
    rw [hst] at h
    dsimp only at h
    cases hgv : s.get_varint with
    | error e => rw [hgv] at h; exact Except.noConfusion h
    | ok p =>
      obtain ⟨v, s2⟩ := p
      rw [hgv] at h
      dsimp only at h
      cases hop : s2.set_frame_type (v % 256) with
      | error e => rw [hop] at h; exact Except.noConfusion h
      | ok s3 =>
        rw [hop] at h
        simp only [Except.ok.injEq, Prod.mk.injEq] at h
        obtain ⟨-, hs⟩ := h
        subst hs
        obtain ⟨hb1, he1⟩ := get_varint_buf hgv
        obtain ⟨hb2, he2⟩ := set_frame_type_buf hop
        simp only [buf_wf, hb1, he1, hb2, he2]
        exact hwf
  | FramePayload =>
    rw [hst] at h
    dsimp only at h
    cases hpf : s.parse_frame codec with
    | none => rw [hpf] at h; exact Except.noConfusion h
    | some r =>
      rw [hpf] at h
      cases r with
      | error e => exact Except.noConfusion h
      | ok p =>
        obtain ⟨f, s2⟩ := p
        dsimp only at h
        simp only [Except.ok.injEq, Prod.mk.injEq] at h
        obtain ⟨-, hs⟩ := h
        subst hs
        obtain ⟨hb, he⟩ := parse_frame_buf hpf
        simp only [buf_wf, hb, he]
        exact hwf
  | PushIdLen => rw [hst] at h; exact Except.noConfusion h
  | PushId => rw [hst] at h; exact Except.noConfusion h
  | QpackInstruction => rw [hst] at h; exact Except.noConfusion h
  | Invalid => rw [hst] at h; exact Except.noConfusion h
  | Done => rw [hst] at h; exact Except.noConfusion h

/-- Extra fuel does not change a processing run that ended stalled. -/
lemma process_fuel_ge {F : Type} {codec : Nat → Nat → List Nat → Except Error F}
    (m : Nat) : ∀ (k : Nat) (x v : Stream) (g : List F),
      process codec m x = (g, v) → stalled codec v = true → m ≤ k →
      process codec k x = (g, v) := by
  induction m with
  | zero =>
    intro k x v g hp hstall _
    simp only [process] at hp
    rw [Prod.mk.injEq] at hp
    obtain ⟨hg, hv⟩ := hp
    subst hg
    subst hv
    cases k with
    | zero => rfl
    | succ k1 =>
      unfold process
      cases hst : step codec x with
      | error e => rfl
      | ok p => simp [stalled, hst] at hstall
  | succ m1 ih =>
    intro k x v g hp hstall hk
    cases hst : step codec x with
    | error e =>
      unfold process at hp
      rw [hst] at hp
      dsimp only at hp
      rw [Prod.mk.injEq] at hp
      obtain ⟨hg, hv⟩ := hp
      subst hg
      subst hv
      cases k with
      | zero => omega
      | succ k1 =>
        unfold process
        rw [hst]
    | ok p =>
      obtain ⟨o, x1⟩ := p
      unfold process at hp
      rw [hst] at hp
      dsimp only at hp
      rw [Prod.mk.injEq] at hp
      obtain ⟨hg, hv⟩ := hp
      cases k with
      | zero => omega
      | succ k1 =>
        unfold process
        rw [hst]
        dsimp only
        have hrun : process codec m1 x1 = ((process codec m1 x1).1, v) := by
          rw [← hv]
        have hk1 : process codec k1 x1 = ((process codec m1 x1).1, v) :=
          ih k1 x1 v (process codec m1 x1).1 hrun hstall (by omega)
        rw [hk1, ← hg]

/-- A stalled run followed by more data and a further stalled run is the
same as one longer run over the combined data. -/
lemma run_extend {F : Type} {codec : Nat → Nat → List Nat → Except Error F}
    (d : List Nat) : ∀ (n m : Nat) (t u v : Stream) (fs gs : List F),
      buf_wf t → process codec n t = (fs, u) → stalled codec u = true →
      process codec m (u.add_data d) = (gs, v) → stalled codec v = true →
      process codec (n + m) (t.add_data d) = (fs ++ gs, v) := by
  intro n
  induction n with
  | zero =>
    intro m t u v fs gs _ hp _ hq _
    simp only [process] at hp
    rw [Prod.mk.injEq] at hp
    obtain ⟨hg, hv⟩ := hp
    subst hg
    subst hv
    simpa using hq
  | succ n1 ih =>
    intro m t u v fs gs hwf hp hsu hq hsv
    cases hst : step codec t with
    | error e =>
      unfold process at hp
      rw [hst] at hp
      dsimp only at hp
      rw [Prod.mk.injEq] at hp
      obtain ⟨hg, hv⟩ := hp
      subst hg
      subst hv
      simp only [List.nil_append]
      exact process_fuel_ge m (n1 + 1 + m) _ _ _ hq hsv (by omega)
    | ok p =>
      obtain ⟨o, t1⟩ := p
      unfold process at hp
      rw [hst] at hp
      dsimp only at hp
      rw [Prod.mk.injEq] at hp
      obtain ⟨hfs, hu⟩ := hp
      have hwf1 : buf_wf t1 := step_buf_wf hst hwf
      have hrun : process codec n1 t1 = ((process codec n1 t1).1, u) := by
        rw [← hu]
      have hih := ih m t1 u v (process codec n1 t1).1 gs hwf1 hrun hsu hq hsv
      have hkey : n1 + 1 + m = (n1 + m) + 1 := by omega
      rw [hkey]
      unfold process
      rw [step_add_data d hwf hst]
      dsimp only
      rw [hih, ← hfs]
      simp [List.append_assoc]

/-- The processing loop preserves the buffer bookkeeping invariant. -/
lemma process_buf_wf {F : Type} {codec : Nat → Nat → List Nat → Except Error F}
    (n : Nat) : ∀ (s : Stream), buf_wf s → buf_wf (process codec n s).2 := by
  induction n with
  | zero => intro s h; exact h
  | succ n1 ih =>
    intro s h
    unfold process
    cases hst : step codec s with
    | error e => exact h
    | ok p =>
      obtain ⟨o, s1⟩ := p
      dsimp only
      exact ih s1 (step_buf_wf hst h)

/-- If the driver stalls after every chunk, it is stalled at the end of
the whole chunked run. -/
lemma driveChunks_stalled_final {F : Type}
    {codec : Nat → Nat → List Nat → Except Error F} (n : Nat) :
    ∀ (cs : List (List Nat)) (s : Stream), stalled codec s = true →
      stalledThrough codec n s cs = true →
      stalled codec (driveChunks codec n s cs).2 = true := by
  intro cs
  induction cs with
  | nil => intro s h _; exact h
  | cons c rest ih =>
    intro s h hthru
    simp only [stalledThrough, Bool.and_eq_true] at hthru
    obtain ⟨h1, h2⟩ := hthru
    simp only [driveChunks]
    exact ih _ h1 h2

/-- A chunked run that stalls after every chunk computes exactly what a
single run over the concatenated data computes. -/
lemma driveChunks_join {F : Type} {codec : Nat → Nat → List Nat → Except Error F}
    (n : Nat) : ∀ (cs : List (List Nat)) (s : Stream), buf_wf s →
      stalledThrough codec n s cs = true →
      driveChunks codec n s cs = process codec (n * cs.length) (s.add_data cs.flatten) := by
  intro cs
  induction cs with
  | nil =>
    intro s hwf _
    simp [driveChunks, List.flatten, add_data_nil, process]
  | cons c rest ih =>
    intro s hwf hthru
    simp only [stalledThrough, Bool.and_eq_true] at hthru
    obtain ⟨hstall, hthru2⟩ := hthru
    have hwfc : buf_wf (s.add_data c) := buf_wf_add_data c hwf
    have hwf1 : buf_wf (process codec n (s.add_data c)).2 := process_buf_wf n _ hwfc
    have hih := ih (process codec n (s.add_data c)).2 hwf1 hthru2
    have hfin : stalled codec
        (driveChunks codec n (process codec n (s.add_data c)).2 rest).2 = true :=
      driveChunks_stalled_final n rest _ hstall hthru2
    have hq : process codec (n * rest.length)
        (((process codec n (s.add_data c)).2).add_data rest.flatten) =
        ((driveChunks codec n (process codec n (s.add_data c)).2 rest).1,
         (driveChunks codec n (process codec n (s.add_data c)).2 rest).2) := by
      rw [← hih]
    have hrun : process codec n (s.add_data c) =
        ((process codec n (s.add_data c)).1, (process codec n (s.add_data c)).2) := rfl
    have hext := run_extend rest.flatten n (n * rest.length) (s.add_data c)
      (process codec n (s.add_data c)).2
      (driveChunks codec n (process codec n (s.add_data c)).2 rest).2
      (process codec n (s.add_data c)).1
      (driveChunks codec n (process codec n (s.add_data c)).2 rest).1
      hwfc hrun hstall hq hfin
    rw [add_data_add_data] at hext
    have hlen : n * (c :: rest).length = n + n * rest.length := by
      simp [List.length_cons]
      ring
    rw [List.flatten_cons, hlen, hext]
    simp only [driveChunks]

/-- Two stalled runs over the same data agree, whatever their fuel. -/
lemma process_stall_unique {F : Type}
    {codec : Nat → Nat → List Nat → Except Error F} {m k : Nat} {x v w : Stream}
    {g g1 : List F} (hp : process codec m x = (g, v)) (hsv : stalled codec v = true)
    (hq : process codec k x = (g1, w)) (hsw : stalled codec w = true) :
    (g, v) = (g1, w) := by
  rcases Nat.le_total m k with hle | hle
  · rw [process_fuel_ge m k x v g hp hsv hle] at hq
    exact hq
  · rw [process_fuel_ge k m x w g1 hq hsw hle] at hp
    exact hp.symm

/-- Claim C1: chunking invariance — `add_data` of concatenated bytes is
`add_data` of the pieces in sequence, and any two chunkings of the same
byte sequence, driven to a stall after each chunk (retrying on the
insufficient-data errors is exactly what `process` does on the next
chunk), yield the identical frame sequence and identical final engine
state. -/
theorem C1_chunking_invariance :
    (∀ (s : Stream) (a b : List Nat),
      s.add_data (a ++ b) = (s.add_data a).add_data b) ∧
    (∀ (F : Type) (codec : Nat → Nat → List Nat → Except Error F)
        (n1 n2 : Nat) (s : Stream) (L1 L2 : List (List Nat)),
      buf_wf s → L1.flatten = L2.flatten →
      stalledThrough codec n1 s L1 = true →
      stalledThrough codec n2 s L2 = true →
      stalled codec (driveChunks codec n1 s L1).2 = true →
      stalled codec (driveChunks codec n2 s L2).2 = true →
      driveChunks codec n1 s L1 = driveChunks codec n2 s L2) := by
  constructor
  · intro s a b
    exact (add_data_add_data s a b).symm
  · intro F codec n1 n2 s L1 L2 hwf hjoin h1 h2 hf1 hf2
    have e1 := driveChunks_join n1 L1 s hwf h1
    have e2 := driveChunks_join n2 L2 s hwf h2
    rw [hjoin] at e1
    have p1 : process codec (n1 * L1.length) (s.add_data L2.flatten) =
        ((driveChunks codec n1 s L1).1, (driveChunks codec n1 s L1).2) := by
      rw [← e1]
    have p2 : process codec (n2 * L2.length) (s.add_data L2.flatten) =
        ((driveChunks codec n2 s L2).1, (driveChunks codec n2 s L2).2) := by
      rw [← e2]
    exact process_stall_unique p1 hf1 p2 hf2

/-- Witness for C1: a Control stream's type prefix, a SETTINGS frame
(length 1, type 4, payload `[0]`), and one further frame (length 0,
type 7), fed in a single chunk and byte by byte: identical frames and
identical final state. -/
theorem C1_chunking_invariance_witness :
    driveChunks demoCodec 16 (Stream.new 3 false) [[0x43, 1, 4, 0, 0, 7]] =
      driveChunks demoCodec 16 (Stream.new 3 false)
        [[0x43], [1], [4], [0], [0], [7]] :=
  C1_chunking_invariance.2 (Nat × Nat × List Nat) demoCodec 16 16
    (Stream.new 3 false) [[0x43, 1, 4, 0, 0, 7]] [[0x43], [1], [4], [0], [0], [7]]
    rfl rfl (by rfl) (by rfl) (by rfl) (by rfl)

end H3
